import Mathlib

/-!
Shallow embedding of the StoneWork client component-discovery core
(package `client`: `Client.StatusInfo`, `Client.GetComponents`,
`containsPrefix`) and proofs of the specification claims about it.

External collaborators (the Docker inspector, the HTTP transport, the
JSON decoder, the vpp-agent client constructor `vppagent.NewClientWithOpts`
and the mode mapping `cnfModeToCompoMode`) are modelled as parameters:
the discovery logic itself is translated from the source.
-/

set_option autoImplicit false

namespace StoneWork

/-- Source constant `DockerComposeServiceLabel = "com.docker.compose.service"`. -/
def DockerComposeServiceLabel : String := "com.docker.compose.service"

/-- The environment-variable key prefix searched by `GetComponents`
(`"MICROSERVICE_LABEL="` in the source). -/
def microserviceLabelKey : String := "MICROSERVICE_LABEL="

/-- Modelled from the spec: `cnfreg.Info` (a StatusRecord), whose definition
is not under `src/`; fields are those the source reads (`MsLabel`, `CnfMode`,
`IPAddr`, `HTTPPort`), with the mode indicator an opaque string per the spec. -/
structure Info where
  MsLabel : String
  CnfMode : String
  IPAddr : String
  HTTPPort : Nat
deriving DecidableEq, Repr, Inhabited

/-- The Go zero value of `cnfreg.Info`: what `info` holds after
`info, ok := cnfInfos[after]` when the key is absent. -/
def zeroInfo : Info := { MsLabel := "", CnfMode := "", IPAddr := "", HTTPPort := 0 }

/-- One entry of `container.NetworkSettings.Networks`: the only field the
source reads is `IPAddress`. -/
structure ContainerNetwork where
  IPAddress : String
deriving DecidableEq, Repr

/-- The fields of an inspected `docker.Container` that `GetComponents` reads,
flattened: `ID`, `Name`, `Config.Labels`, `Config.Env`, `Config.Image`,
`NetworkSettings.IPAddress`, `NetworkSettings.Networks` (the map's values in
iteration order). -/
structure Container where
  ID : String
  Name : String
  Labels : List (String × String)
  Env : List String
  Image : String
  IPAddress : String
  Networks : List ContainerNetwork
deriving DecidableEq, Repr

/-- Modelled from the spec: the closed set of component modes
{Auxiliary, Standalone, Managed-as-reported}; the source constants
`ComponentAuxiliary`/`ComponentStandalone` and the Managed sub-modes are not
under `src/`. -/
inductive ComponentMode where
  | auxiliary
  | standalone
  | managed (sub : String)
deriving DecidableEq, Repr

/-- Modelled from the spec: the opaque management-client handle returned by
`vppagent.NewClientWithOpts(WithHost(h), WithHTTPPort(p))`, recorded as the
host/port it was constructed from. -/
structure AgentClient where
  host : String
  httpPort : Nat
deriving DecidableEq, Repr

/-- The output entity built by `GetComponents` (`component` in the source):
`Name`, `Mode`, optional `Info`, the metadata map (association list with
distinct keys), and the optional attached agent client. -/
structure Component where
  Name : String
  Mode : ComponentMode
  info : Option Info
  Metadata : List (String × String)
  agentclient : Option AgentClient
deriving DecidableEq, Repr

/-- A Go map read `m[k]` on a `map[string]string`: the stored value, or the
zero value `""` when the key is absent. -/
def mapGetD (m : List (String × String)) (k : String) : String :=
  (m.lookup k).getD ""

/-- `strings.HasPrefix` on the character-sequence view of strings (kept
kernel-computable; `String.startsWith` is byte-offset based and is not). -/
def hasPrefixGo (s p : String) : Bool := p.data.isPrefixOf s.data

/-- Dropping the first `n` characters of a string (the effect of
`strings.TrimPrefix` once the prefix is known present). -/
def dropGo (s : String) (n : Nat) : String := ⟨s.data.drop n⟩

/-- Translation of the source helper
`containsPrefix(strs []string, prefix string) (string, bool)`:
scan `strs` in order, and on the first entry with the given prefix return
its suffix (`strings.TrimPrefix`); `none` models `("", false)`. -/
def containsPrefix : List String → String → Option String
  | [], _ => none
  | s :: strs, p =>
    if hasPrefixGo s p then some (dropGo s p.length) else containsPrefix strs p

/-- The source loop over `container.NetworkSettings.Networks`: the first
non-empty `IPAddress`, scanning in order (`break` after the first hit). -/
def firstNetworkIP : List ContainerNetwork → Option String
  | [] => none
  | nw :: rest => if nw.IPAddress ≠ "" then some nw.IPAddress else firstNetworkIP rest

/-- The metadata map built unconditionally for every container by
`GetComponents`: `containerID`, `containerName`, `containerServiceName`,
`dockerImage`, and `containerIPAddress` resolved from
`NetworkSettings.IPAddress` first, else the first non-empty per-network IP,
else absent. -/
def buildMetadata (c : Container) : List (String × String) :=
  let base := [("containerID", c.ID), ("containerName", c.Name),
    ("containerServiceName", mapGetD c.Labels DockerComposeServiceLabel),
    ("dockerImage", c.Image)]
  match (if c.IPAddress ≠ "" then some c.IPAddress else firstNetworkIP c.Networks) with
  | some ip => base ++ [("containerIPAddress", ip)]
  | none => base

/-- The source's `cnfInfos` map build:
`for _, info := range infos { cnfInfos[info.MsLabel] = info }` —
a Go map as a function, each assignment overwriting the previous binding. -/
def buildCnfInfos (infos : List Info) : String → Option Info :=
  infos.foldl (fun m info => fun k => if k = info.MsLabel then some info else m k)
    (fun _ => none)

/-- The body of the `GetComponents` per-container loop, translated statement
by statement. `cnfInfos` is the built lookup table, `cnfModeToCompoMode` the
mode mapping (external configuration per the spec), `newClient` the
management-client constructor `vppagent.NewClientWithOpts`. A `.error`
result models the loop body's early `return components, err`. -/
def processContainer (cnfInfos : String → Option Info)
    (cnfModeToCompoMode : String → ComponentMode)
    (newClient : String → Nat → Except String AgentClient)
    (c : Container) : Except String Component :=
  let metadata := buildMetadata c
  match containsPrefix c.Env microserviceLabelKey with
  | none =>
    .ok { Name := mapGetD c.Labels DockerComposeServiceLabel,
          Mode := .auxiliary, info := none, Metadata := metadata,
          agentclient := none }
  | some after =>
    let infoOpt := cnfInfos after
    let info := infoOpt.getD zeroInfo
    let compo : Component :=
      match infoOpt with
      | some i =>
        { Name := i.MsLabel, Mode := cnfModeToCompoMode i.CnfMode,
          info := some i, Metadata := metadata, agentclient := none }
      | none =>
        { Name := mapGetD c.Labels DockerComposeServiceLabel,
          Mode := .standalone, info := none, Metadata := metadata,
          agentclient := none }
    match newClient info.IPAddr info.HTTPPort with
    | .error e => .error e
    | .ok client => .ok { compo with agentclient := some client }

/-- The `for _, container := range containers` loop of `GetComponents`:
append one component per container; on an error from the body, return the
components accumulated so far together with the error (`return components, err`). -/
def componentsLoop (pc : Container → Except String Component) :
    List Container → List Component × Option String
  | [] => ([], none)
  | c :: rest =>
    match pc c with
    | .error e => ([], some e)
    | .ok compo =>
      let r := componentsLoop pc rest
      (compo :: r.1, r.2)

/-- The inputs `GetComponents` draws from its collaborators: the result of
`StatusInfo`, the result of `ListContainers` + per-container inspection
(collapsed into one fallible list, as every failure is returned verbatim),
the mode mapping, and the management-client constructor. -/
structure DiscoveryEnv where
  statusResult : Except String (List Info)
  containersResult : Except String (List Container)
  cnfModeToCompoMode : String → ComponentMode
  newClient : String → Nat → Except String AgentClient

/-- The per-container classifier `GetComponents` runs, with its lookup table
built from the fetched records. -/
def discoveryPC (env : DiscoveryEnv) (infos : List Info) :
    Container → Except String Component :=
  processContainer (buildCnfInfos infos) env.cnfModeToCompoMode env.newClient

/-- Translation of `Client.GetComponents`: fetch status records (error →
`(nil, err)`), list and inspect containers (error → `(nil, err)`), build the
label-keyed lookup table, then classify each container in order. The result
pairs the returned slice with the returned error, as in Go. -/
def GetComponents (env : DiscoveryEnv) : List Component × Option String :=
  match env.statusResult with
  | .error e => ([], some e)
  | .ok infos =>
    match env.containersResult with
    | .error e => ([], some e)
    | .ok containers => componentsLoop (discoveryPC env infos) containers

/-- The HTTP response as `StatusInfo` consumes it: its body. -/
structure HTTPResponse where
  body : String

/-- The fixed path `StatusInfo` requests. -/
def statusInfoPath : String := "/status/info"

/-- Translation of `Client.StatusInfo`: one GET on the fixed path (`get`
models `c.get(ctx, "/status/info", nil, nil)`), then JSON-decode the body
(`decode` models `json.NewDecoder(resp.body).Decode`); each failure is
wrapped with the source's message and the underlying cause. -/
def StatusInfo (get : String → Except String HTTPResponse)
    (decode : String → Except String (List Info)) : Except String (List Info) :=
  match get statusInfoPath with
  | .error e => .error ("HTTP request failed: " ++ e)
  | .ok resp =>
    match decode resp.body with
    | .error e => .error ("decoding reply failed: " ++ e)
    | .ok infos => .ok infos

/-! ### Helper lemmas -/

theorem componentsLoop_cons_error (pc : Container → Except String Component)
    (c : Container) (rest : List Container) (e : String) (h : pc c = .error e) :
    componentsLoop pc (c :: rest) = ([], some e) := by
  simp [componentsLoop, h]

theorem componentsLoop_cons_ok (pc : Container → Except String Component)
    (c : Container) (rest : List Container) (compo : Component)
    (h : pc c = .ok compo) :
    componentsLoop pc (c :: rest) =
      (compo :: (componentsLoop pc rest).1, (componentsLoop pc rest).2) := by
  simp [componentsLoop, h]

theorem firstNetworkIP_eq_find (nws : List ContainerNetwork) :
    firstNetworkIP nws =
      (nws.map ContainerNetwork.IPAddress).find? (fun s => s != "") := by
  induction nws with
  | nil => rfl
  | cons nw rest ih =>
    simp only [firstNetworkIP, List.map, List.find?]
    by_cases h : nw.IPAddress = ""
    · simp [h, ih]
    · have hb : (nw.IPAddress != "") = true := by simpa using h
      simp [h, hb]

theorem buildCnfInfos_foldl (infos : List Info) (lbl : String) :
    ∀ m : String → Option Info,
      (infos.foldl
        (fun m info => fun k => if k = info.MsLabel then some info else m k) m) lbl =
      ((infos.reverse.find? (fun i => i.MsLabel == lbl)).or (m lbl)) := by
  induction infos with
  | nil => intro m; rfl
  | cons info rest ih =>
    intro m
    simp only [List.foldl, List.reverse_cons, List.find?_append]
    rw [ih]
    cases hf : rest.reverse.find? (fun i => i.MsLabel == lbl) with
    | some j => rfl
    | none =>
      simp only [Option.or, List.find?]
      by_cases h : info.MsLabel = lbl
      · simp [h]
      · have hb : (info.MsLabel == lbl) = false := by simpa using h
        have hif : ¬(lbl = info.MsLabel) := fun hx => h hx.symm
        simp [hb, hif]

theorem buildMetadata_lookup_ip (c : Container) :
    (buildMetadata c).lookup "containerIPAddress" =
      (if c.IPAddress = "" then firstNetworkIP c.Networks else some c.IPAddress) := by
  unfold buildMetadata
  by_cases h : c.IPAddress = ""
  · cases hf : firstNetworkIP c.Networks <;> simp [h, hf, List.lookup]
  · simp [h, List.lookup]

theorem componentsLoop_ok_spec (pc : Container → Except String Component)
    (cs : List Container) :
    (componentsLoop pc cs).2 = none →
      (componentsLoop pc cs).1.length = cs.length ∧
      ∀ i (hi : i < cs.length) (hi2 : i < (componentsLoop pc cs).1.length),
        pc (cs.get ⟨i, hi⟩) = .ok ((componentsLoop pc cs).1.get ⟨i, hi2⟩) := by
  induction cs with
  | nil =>
    intro _
    exact ⟨rfl, fun i hi => absurd hi (Nat.not_lt_zero i)⟩
  | cons c rest ih =>
    intro h
    cases hc : pc c with
    | error e =>
      rw [componentsLoop_cons_error pc c rest e hc] at h
      exact absurd h (by simp)
    | ok compo =>
      rw [componentsLoop_cons_ok pc c rest compo hc] at h
      obtain ⟨hlen, hget⟩ := ih h
      rw [componentsLoop_cons_ok pc c rest compo hc]
      refine ⟨by simpa using hlen, ?_⟩
      intro i hi hi2
      match i with
      | 0 => simpa using hc
      | Nat.succ j =>
        have hj : j < rest.length := by simpa using hi
        have hj2 : j < (componentsLoop pc rest).1.length := by simpa using hi2
        simpa using hget j hj hj2

theorem componentsLoop_append_error (pc : Container → Except String Component)
    (pre : List Container) (c : Container) (post : List Container)
    (comps : List Component) (e : String) :
    componentsLoop pc pre = (comps, none) → pc c = .error e →
      componentsLoop pc (pre ++ c :: post) = (comps, some e) := by
  induction pre generalizing comps with
  | nil =>
    intro h1 h2
    have hcomps : comps = [] := by
      have := congrArg Prod.fst h1
      simpa [componentsLoop] using this.symm
    subst hcomps
    simpa using componentsLoop_cons_error pc c post e h2
  | cons a pre2 ih =>
    intro h1 h2
    cases ha : pc a with
    | error e2 =>
      rw [componentsLoop_cons_error pc a pre2 e2 ha] at h1
      have := congrArg Prod.snd h1
      simp at this
    | ok compo =>
      rw [componentsLoop_cons_ok pc a pre2 compo ha] at h1
      have hsnd : (componentsLoop pc pre2).2 = none := by
        simpa using congrArg Prod.snd h1
      have hfst : compo :: (componentsLoop pc pre2).1 = comps := by
        simpa using congrArg Prod.fst h1
      have hpre2 : componentsLoop pc pre2 = ((componentsLoop pc pre2).1, none) := by
        rw [← hsnd]
      rw [List.cons_append, componentsLoop_cons_ok pc a _ compo ha,
        ih (componentsLoop pc pre2).1 hpre2 h2, ← hfst]

/-! ### Claim theorems -/

/-- C6: for every container, the metadata key `containerIPAddress` resolves to
the primary IP address field when non-empty, otherwise to the first non-empty
IP found scanning the per-network list in order, and otherwise the key is
absent from the metadata map. -/
theorem metadata_ip_priority (c : Container) :
    (buildMetadata c).lookup "containerIPAddress" =
      (if c.IPAddress = "" then
        (c.Networks.map ContainerNetwork.IPAddress).find? (fun s => s != "")
      else some c.IPAddress) ∧
    ((buildMetadata c).lookup "containerIPAddress" = none ↔
      (c.IPAddress = "" ∧ ∀ nw ∈ c.Networks, nw.IPAddress = "")) := by
  have h1 := buildMetadata_lookup_ip c
  rw [firstNetworkIP_eq_find] at h1
  refine ⟨h1, ?_⟩
  rw [h1]
  by_cases h : c.IPAddress = ""
  · simp [h, List.find?_eq_none]
  · simp [h]

/-- C8: the lookup table `GetComponents` builds from the fetched status
records maps every label to the last record with that label in fetch order:
each `cnfInfos[info.MsLabel] = info` assignment overwrites the previous one,
so on duplicate labels the last write wins; and a component classified for a
container carrying that label gets exactly that last record (or none when no
record carries the label). -/
theorem buildCnfInfos_last_write_wins (infos : List Info) (lbl : String) :
    buildCnfInfos infos lbl = infos.reverse.find? (fun i => i.MsLabel == lbl) ∧
    (∀ (mm : String → ComponentMode)
        (nc : String → Nat → Except String AgentClient)
        (c : Container) (compo : Component),
      containsPrefix c.Env microserviceLabelKey = some lbl →
      processContainer (buildCnfInfos infos) mm nc c = .ok compo →
      compo.info = infos.reverse.find? (fun i => i.MsLabel == lbl)) := by
  have htab : buildCnfInfos infos lbl =
      infos.reverse.find? (fun i => i.MsLabel == lbl) := by
    have h := buildCnfInfos_foldl infos lbl (fun _ => none)
    simpa [buildCnfInfos] using h
  refine ⟨htab, ?_⟩
  intro mm nc c compo hctn hpc
  rw [← htab]
  cases hio : buildCnfInfos infos lbl with
  | none =>
    simp only [processContainer, hctn, hio, Option.getD_none, zeroInfo] at hpc
    cases hnc : nc "" 0 with
    | error e => rw [hnc] at hpc; simp at hpc
    | ok cl =>
      rw [hnc] at hpc
      simp only [Except.ok.injEq] at hpc
      rw [← hpc]
  | some entry =>
    simp only [processContainer, hctn, hio, Option.getD_some] at hpc
    cases hnc : nc entry.IPAddr entry.HTTPPort with
    | error e => rw [hnc] at hpc; simp at hpc
    | ok cl =>
      rw [hnc] at hpc
      simp only [Except.ok.injEq] at hpc
      rw [← hpc]

/-- C10: when several environment entries carry the `MICROSERVICE_LABEL=`
prefix, `containsPrefix` returns the suffix of the first such entry in
sequence order, ignoring the later ones. -/
theorem containsPrefix_first_entry (strs : List String) (p : String) :
    containsPrefix strs p =
      (strs.find? (fun s => hasPrefixGo s p)).map (fun s => dropGo s p.length) := by
  induction strs with
  | nil => rfl
  | cons s rest ih =>
    simp only [containsPrefix, List.find?]
    cases h : hasPrefixGo s p
    · simp [h, ih]
    · simp [h]

/-- C9: `StatusInfo` consults the transport only on the fixed path
`/status/info`; a transport error yields an error wrapping the cause and no
records, a decode error yields an error wrapping the cause and no records,
and on success the decoded records are returned. -/
theorem statusInfo_contract (get : String → Except String HTTPResponse)
    (decode : String → Except String (List Info)) :
    (∀ e, get statusInfoPath = .error e →
        StatusInfo get decode = .error ("HTTP request failed: " ++ e)) ∧
    (∀ r e, get statusInfoPath = .ok r → decode r.body = .error e →
        StatusInfo get decode = .error ("decoding reply failed: " ++ e)) ∧
    (∀ r recs, get statusInfoPath = .ok r → decode r.body = .ok recs →
        StatusInfo get decode = .ok recs) ∧
    (∀ get2 : String → Except String HTTPResponse,
        get2 statusInfoPath = get statusInfoPath →
        StatusInfo get2 decode = StatusInfo get decode) := by
  refine ⟨fun e h => ?_, fun r e h1 h2 => ?_, fun r recs h1 h2 => ?_,
    fun get2 h => ?_⟩
  · simp [StatusInfo, h]
  · simp [StatusInfo, h1, h2]
  · simp [StatusInfo, h1, h2]
  · simp [StatusInfo, h]

/-- C7: a discovery call that returns without an error yields exactly one
output component per input container: the output length equals the container
count, and the component at each index is the one classified from the
container at the same index (inspector order, no re-sorting). -/
theorem getComponents_one_per_container (env : DiscoveryEnv)
    (infos : List Info) (cs : List Container)
    (hs : env.statusResult = .ok infos)
    (hc : env.containersResult = .ok cs)
    (hok : (GetComponents env).2 = none) :
    (GetComponents env).1.length = cs.length ∧
    ∀ i (hi : i < cs.length) (hi2 : i < (GetComponents env).1.length),
      discoveryPC env infos (cs.get ⟨i, hi⟩) =
        .ok ((GetComponents env).1.get ⟨i, hi2⟩) := by
  have hg : GetComponents env = componentsLoop (discoveryPC env infos) cs := by
    simp [GetComponents, hs, hc]
  rw [hg] at hok ⊢
  exact componentsLoop_ok_spec _ _ hok

/-- C3: in an error-free discovery call, a container whose
`MICROSERVICE_LABEL` value has a status-table entry yields a component whose
`info` is that entry, whose name is the entry's label, whose mode is the
configured mapping of the entry's mode indicator, and whose management client
was constructed from the entry's management IP and port. -/
theorem getComponents_matched_rule (env : DiscoveryEnv)
    (infos : List Info) (cs : List Container) (i : Nat) (lbl : String)
    (entry : Info)
    (hs : env.statusResult = .ok infos)
    (hc : env.containersResult = .ok cs)
    (hok : (GetComponents env).2 = none)
    (hi : i < cs.length) (hi2 : i < (GetComponents env).1.length)
    (hlbl : containsPrefix (cs.get ⟨i, hi⟩).Env microserviceLabelKey = some lbl)
    (hentry : buildCnfInfos infos lbl = some entry) :
    ((GetComponents env).1.get ⟨i, hi2⟩).info = some entry ∧
    ((GetComponents env).1.get ⟨i, hi2⟩).Name = entry.MsLabel ∧
    ((GetComponents env).1.get ⟨i, hi2⟩).Mode =
      env.cnfModeToCompoMode entry.CnfMode ∧
    ∃ cl, env.newClient entry.IPAddr entry.HTTPPort = .ok cl ∧
      ((GetComponents env).1.get ⟨i, hi2⟩).agentclient = some cl := by
  have hg : GetComponents env = componentsLoop (discoveryPC env infos) cs := by
    simp [GetComponents, hs, hc]
  rw [hg] at hok
  revert hi2
  rw [hg]
  intro hi2
  obtain ⟨hlen, hget⟩ := componentsLoop_ok_spec _ _ hok
  have hpc := hget i hi hi2
  simp only [discoveryPC, processContainer, hlbl, hentry, Option.getD_some] at hpc
  cases hnc : env.newClient entry.IPAddr entry.HTTPPort with
  | error e => rw [hnc] at hpc; simp at hpc
  | ok cl =>
    rw [hnc] at hpc
    simp only [Except.ok.injEq] at hpc
    simp only [discoveryPC]
    rw [← hpc]
    exact ⟨rfl, rfl, rfl, cl, rfl, rfl⟩

/-- C4: in an error-free discovery call, a container whose
`MICROSERVICE_LABEL` value has no status-table entry yields a component with
mode Standalone, name equal to the container's compose-service label value,
and no info record. -/
theorem getComponents_standalone_rule (env : DiscoveryEnv)
    (infos : List Info) (cs : List Container) (i : Nat) (lbl : String)
    (hs : env.statusResult = .ok infos)
    (hc : env.containersResult = .ok cs)
    (hok : (GetComponents env).2 = none)
    (hi : i < cs.length) (hi2 : i < (GetComponents env).1.length)
    (hlbl : containsPrefix (cs.get ⟨i, hi⟩).Env microserviceLabelKey = some lbl)
    (hentry : buildCnfInfos infos lbl = none) :
    ((GetComponents env).1.get ⟨i, hi2⟩).Mode = ComponentMode.standalone ∧
    ((GetComponents env).1.get ⟨i, hi2⟩).Name =
      mapGetD (cs.get ⟨i, hi⟩).Labels DockerComposeServiceLabel ∧
    ((GetComponents env).1.get ⟨i, hi2⟩).info = none := by
  have hg : GetComponents env = componentsLoop (discoveryPC env infos) cs := by
    simp [GetComponents, hs, hc]
  rw [hg] at hok
  revert hi2
  rw [hg]
  intro hi2
  obtain ⟨hlen, hget⟩ := componentsLoop_ok_spec _ _ hok
  have hpc := hget i hi hi2
  simp only [discoveryPC, processContainer, hlbl, hentry, Option.getD_none,
    zeroInfo] at hpc
  cases hnc : env.newClient "" 0 with
  | error e => rw [hnc] at hpc; simp at hpc
  | ok cl =>
    rw [hnc] at hpc
    simp only [Except.ok.injEq] at hpc
    simp only [discoveryPC]
    rw [← hpc]
    exact ⟨rfl, rfl, rfl⟩

/-- C5: a container with no `MICROSERVICE_LABEL=` entry in its environment
sequence yields, in an error-free discovery call, a component with mode
Auxiliary, name equal to the container's compose-service label value, no info
record and no management client, whatever the status table holds. -/
theorem getComponents_auxiliary_rule (env : DiscoveryEnv)
    (infos : List Info) (cs : List Container) (i : Nat)
    (hs : env.statusResult = .ok infos)
    (hc : env.containersResult = .ok cs)
    (hok : (GetComponents env).2 = none)
    (hi : i < cs.length) (hi2 : i < (GetComponents env).1.length)
    (hlbl : containsPrefix (cs.get ⟨i, hi⟩).Env microserviceLabelKey = none) :
    ((GetComponents env).1.get ⟨i, hi2⟩).Mode = ComponentMode.auxiliary ∧
    ((GetComponents env).1.get ⟨i, hi2⟩).Name =
      mapGetD (cs.get ⟨i, hi⟩).Labels DockerComposeServiceLabel ∧
    ((GetComponents env).1.get ⟨i, hi2⟩).info = none ∧
    ((GetComponents env).1.get ⟨i, hi2⟩).agentclient = none := by
  have hg : GetComponents env = componentsLoop (discoveryPC env infos) cs := by
    simp [GetComponents, hs, hc]
  rw [hg] at hok
  revert hi2
  rw [hg]
  intro hi2
  obtain ⟨hlen, hget⟩ := componentsLoop_ok_spec _ _ hok
  have hpc := hget i hi hi2
  simp only [discoveryPC, processContainer, hlbl, Except.ok.injEq] at hpc
  simp only [discoveryPC]
  rw [← hpc]
  exact ⟨rfl, rfl, rfl, rfl⟩

/-- C1 (amended): when management-client construction fails for some
container, the discovery call stops at that container — the containers after
it are never processed — and returns the error, but alongside it returns the
components already built for the containers before the failing one
(`return components, err`), not an empty list. -/
theorem getComponents_failfast_partial (env : DiscoveryEnv) (infos : List Info)
    (pre : List Container) (c : Container) (post : List Container)
    (comps : List Component) (e : String)
    (hs : env.statusResult = .ok infos)
    (hc : env.containersResult = .ok (pre ++ c :: post))
    (hpre : componentsLoop (discoveryPC env infos) pre = (comps, none))
    (hfail : discoveryPC env infos c = .error e) :
    GetComponents env = (comps, some e) := by
  have hg : GetComponents env =
      componentsLoop (discoveryPC env infos) (pre ++ c :: post) := by
    simp [GetComponents, hs, hc]
  rw [hg]
  exact componentsLoop_append_error _ _ _ _ _ _ hpre hfail

/-! ### Concrete fixtures -/

/-- A registered status record for label `cnf1`. -/
def infoCnf1 : Info :=
  { MsLabel := "cnf1", CnfMode := "STANDALONE", IPAddr := "10.100.0.2",
    HTTPPort := 9191 }

/-- A registered status record for label `cnf2`. -/
def infoCnf2 : Info :=
  { MsLabel := "cnf2", CnfMode := "STANDALONE", IPAddr := "10.100.0.3",
    HTTPPort := 9191 }

/-- A container carrying `MICROSERVICE_LABEL=cnf1`, matched by `infoCnf1`. -/
def contMatched : Container :=
  { ID := "c1", Name := "/sw-cnf1",
    Labels := [(DockerComposeServiceLabel, "cnf1-svc")],
    Env := ["MICROSERVICE_LABEL=cnf1"], Image := "img1", IPAddress := "",
    Networks := [{ IPAddress := "10.100.0.9" }] }

/-- A container carrying `MICROSERVICE_LABEL=cnf2`, matched by `infoCnf2`. -/
def contMatched2 : Container :=
  { ID := "c2", Name := "/sw-cnf2",
    Labels := [(DockerComposeServiceLabel, "cnf2-svc")],
    Env := ["MICROSERVICE_LABEL=cnf2"], Image := "img2", IPAddress := "",
    Networks := [] }

/-- A container without the `MICROSERVICE_LABEL` variable (Auxiliary). -/
def contAux : Container :=
  { ID := "c0", Name := "/helper",
    Labels := [(DockerComposeServiceLabel, "helper")],
    Env := ["TZ=UTC"], Image := "img0", IPAddress := "172.17.0.2",
    Networks := [] }

/-- A container carrying `MICROSERVICE_LABEL=cnf3`, a label with no status
record (Standalone). -/
def contStandalone : Container :=
  { ID := "c3", Name := "/sw-cnf3",
    Labels := [(DockerComposeServiceLabel, "cnf3-svc")],
    Env := ["MICROSERVICE_LABEL=cnf3"], Image := "img3", IPAddress := "",
    Networks := [] }

/-- A discovery environment whose client constructor always succeeds, with
one auxiliary and one matched container. -/
def okEnv : DiscoveryEnv :=
  { statusResult := .ok [infoCnf1],
    containersResult := .ok [contAux, contMatched],
    cnfModeToCompoMode := fun s => .managed s,
    newClient := fun h p => .ok { host := h, httpPort := p } }

/-- A discovery environment with one standalone container: its label `cnf3`
has no status record, the constructor always succeeds. -/
def standaloneEnv : DiscoveryEnv :=
  { statusResult := .ok [infoCnf1],
    containersResult := .ok [contStandalone],
    cnfModeToCompoMode := fun s => .managed s,
    newClient := fun h p => .ok { host := h, httpPort := p } }

/-- A discovery environment with two matched containers whose client
constructor succeeds for `infoCnf1`'s address and fails for `infoCnf2`'s. -/
def failingClientEnv : DiscoveryEnv :=
  { statusResult := .ok [infoCnf1, infoCnf2],
    containersResult := .ok [contMatched, contMatched2],
    cnfModeToCompoMode := fun s => .managed s,
    newClient := fun h p =>
      if h = "10.100.0.2" then .ok { host := h, httpPort := p }
      else .error "dial failed" }

/-- The component `failingClientEnv` builds for `contMatched` before the
failure. -/
def cnf1Component : Component :=
  { Name := "cnf1", Mode := .managed "STANDALONE", info := some infoCnf1,
    Metadata := [("containerID", "c1"), ("containerName", "/sw-cnf1"),
      ("containerServiceName", "cnf1-svc"), ("dockerImage", "img1"),
      ("containerIPAddress", "10.100.0.9")],
    agentclient := some { host := "10.100.0.2", httpPort := 9191 } }

/-- C1 counterexample: with two input containers and a management-client
construction failure on the second, `GetComponents` returns a one-element
list — a non-empty strict prefix of the would-be complete two-element list —
together with the error, so the caller does not see "either the complete
list or only an error". -/
theorem getComponents_partial_list_and_error :
    failingClientEnv.containersResult = .ok [contMatched, contMatched2] ∧
    (GetComponents failingClientEnv).1.length = 1 ∧
    (GetComponents failingClientEnv).2 = some "dial failed" :=
  ⟨rfl, by decide, by decide⟩

/-- Witness for C1's amended theorem: in `failingClientEnv` the call stops at
the second container and returns the first container's component together
with the error. -/
theorem getComponents_failfast_partial_witness :
    GetComponents failingClientEnv = ([cnf1Component], some "dial failed") :=
  getComponents_failfast_partial failingClientEnv [infoCnf1, infoCnf2]
    [contMatched] contMatched2 [] [cnf1Component] "dial failed"
    rfl rfl (by decide) (by rfl)

/-- C2 (evaluating the code at the failing input): a container whose label
`cnf3` has no status-table entry is classified Standalone with no info, yet
`GetComponents` still constructs a management client — from the zero-value
record's empty IP address and port 0 — and attaches it to the component. -/
theorem standalone_gets_zero_value_client :
    ((GetComponents standaloneEnv).1.map
        (fun k => (k.Mode, k.info, k.agentclient))) =
      [(ComponentMode.standalone, none, some { host := "", httpPort := 0 })] ∧
    (GetComponents standaloneEnv).2 = none :=
  ⟨by decide, by decide⟩

/-- Witness for C3 at a concrete matched container. -/
theorem getComponents_matched_rule_witness :
    ((GetComponents okEnv).1.get ⟨1, by decide⟩).info = some infoCnf1 :=
  (getComponents_matched_rule okEnv [infoCnf1] [contAux, contMatched] 1 "cnf1"
    infoCnf1 rfl rfl (by decide) (by decide) (by decide) (by decide)
    (by decide)).1

/-- Witness for C4 at a concrete standalone container. -/
theorem getComponents_standalone_rule_witness :
    ((GetComponents standaloneEnv).1.get ⟨0, by decide⟩).Mode =
      ComponentMode.standalone :=
  (getComponents_standalone_rule standaloneEnv [infoCnf1] [contStandalone] 0
    "cnf3" rfl rfl (by decide) (by decide) (by decide) (by decide)
    (by decide)).1

/-- Witness for C5 at a concrete auxiliary container. -/
theorem getComponents_auxiliary_rule_witness :
    ((GetComponents okEnv).1.get ⟨0, by decide⟩).Mode =
      ComponentMode.auxiliary :=
  (getComponents_auxiliary_rule okEnv [infoCnf1] [contAux, contMatched] 0
    rfl rfl (by decide) (by decide) (by decide) (by decide)).1

/-- Witness for C7 at a concrete error-free discovery call. -/
theorem getComponents_one_per_container_witness :
    (GetComponents okEnv).1.length = [contAux, contMatched].length :=
  (getComponents_one_per_container okEnv [infoCnf1] [contAux, contMatched]
    rfl rfl (by decide)).1

end StoneWork
